import Mathlib

/-!
Shallow embedding of `GitSyncService`
(`packages/git/src/browser/git-sync-service.ts`).

The controller drives two workflows, `sync` and `publish`, against four
external collaborators: the git client (`git.exec`, `git.status`,
`git.remote`), the repository tracker (`selectedRepository`,
`selectedRepositoryStatus`), the prompt UI (quick-open pick and confirm
dialog) and the message service (`warn` / `error`).  We model one workflow
invocation as a pure function of an environment record that fixes what every
external call returns, and we collect the externally observable actions of
the invocation in an ordered event trace.
-/

namespace GitSync


/-- JavaScript truthiness of an optional string value (`!!s`):
`undefined` and the empty string are falsy, every other string is truthy. -/
def truthy : Option String → Bool
  | none => false
  | some s => !s.isEmpty

/-- Ahead/behind counts of a tracked branch relative to its upstream. -/
structure AheadBehind where
  ahead : Nat
  behind : Nat
deriving Repr, DecidableEq

/-- Snapshot of repository state as read from the repository tracker or
re-queried through `git.status`: current branch, upstream tracking branch,
and ahead/behind counts, each possibly absent. -/
structure RepositoryStatus where
  branch : Option String
  upstreamBranch : Option String
  aheadBehind : Option AheadBehind
deriving Repr, DecidableEq

/-- Opaque handle for a working copy (Theia `Repository` carries its root
URI only; nothing in the controller inspects it). -/
structure Repository where
  localUri : String
deriving Repr, DecidableEq

/-- An error value rejected by `git.exec`; the handler `error(e)` inspects
the presence and truthiness of its `message` property. -/
structure CommandError where
  message : Option String
deriving Repr, DecidableEq

/-- Externally observable actions of one workflow invocation, in order. -/
inductive Event where
  /-- A quick-open prompt (`quickOpenService.open` issued through `pick`)
  with the given placeholder and item labels. -/
  | pick (placeholder : String) (labels : List String)
  /-- A `ConfirmDialog` opened with the given title and message. -/
  | confirmDialog (title : String) (msg : String)
  /-- A call `git.exec(repository, args)` dispatched with the given argv list. -/
  | exec (args : List String)
  /-- A call `git.status(repository)` dispatched (from `shouldPush`). -/
  | statusQuery
  /-- A call `git.remote(repository)` dispatched (from `getRemote`). -/
  | remoteQuery
  /-- A warning `messageService.warn(msg)` shown to the user. -/
  | warn (msg : String)
  /-- An error `messageService.error(msg)` shown to the user. -/
  | errorShown (msg : String)
  /-- A log `console.error(e)` (developer console, no user notification). -/
  | consoleError
  /-- The change signal `onDidChangeEmitter.fire(undefined)` of `setSyncing`. -/
  | didChange
deriving Repr, DecidableEq

/-- Eligibility query `canSync()`: false while `_syncing`; otherwise
`!!status && !!status.branch && !!status.upstreamBranch`. -/
def canSync (syncing : Bool) (status : Option RepositoryStatus) : Bool :=
  if syncing then false
  else
    match status with
    | none => false
    | some s => truthy s.branch && truthy s.upstreamBranch

/-- Eligibility query `canPublish()`: false while `syncing`; otherwise
`!!status && !!status.branch && !status.upstreamBranch`. -/
def canPublish (syncing : Bool) (status : Option RepositoryStatus) : Bool :=
  if syncing then false
  else
    match status with
    | none => false
    | some s => truthy s.branch && !truthy s.upstreamBranch

/-- Outcome of one dispatched `git.exec` call.  `ok` and `err` are the two
behaviours of the client interface (resolve, or reject with a
`CommandError`).  `thrown` models a rejection value on which the error
handler itself throws — in JavaScript, `"message" in e` raises a
`TypeError` when `e` is not an object — so the exception escapes the
`pull`/`push` helper; the `try`/`finally` in `sync` must still restore the
busy flag in that case. -/
inductive ExecOutcome where
  | ok
  | err (e : CommandError)
  | thrown
deriving Repr, DecidableEq

/-- An outcome the git client can produce under its interface contract:
resolution, or rejection with a `CommandError`. -/
def isClientOutcome : ExecOutcome → Bool
  | ExecOutcome.thrown => false
  | _ => true

/-- Handler `GitSyncService.error(e)`: when the error value has a truthy `message`
property it is shown through `messageService.error`; otherwise the raw
value goes to `console.error` only. -/
def errorEvents (e : CommandError) : List Event :=
  match e.message with
  | some m => if m.isEmpty then [Event.consoleError] else [Event.errorShown m]
  | none => [Event.consoleError]

/-- Result of running one `pull`/`push` helper: the events it emitted and
whether an exception escaped it. -/
structure StepResult where
  events : List Event
  escaped : Bool
deriving Repr, DecidableEq

/-- Argv built by `pull`: `["pull"]`, plus `"-r"` when rebasing. -/
def pullArgs (rebase : Bool) : List String :=
  ["pull"] ++ (if rebase then ["-r"] else [])

/-- Helper `GitSyncService.pull`: dispatch `git.exec` with `pullArgs` and route any
rejection through the catch-all handler `error(e)`. -/
def pull (rebase : Bool) (outcome : ExecOutcome) : StepResult :=
  match outcome with
  | ExecOutcome.ok => ⟨[Event.exec (pullArgs rebase)], false⟩
  | ExecOutcome.err e => ⟨Event.exec (pullArgs rebase) :: errorEvents e, false⟩
  | ExecOutcome.thrown => ⟨[Event.exec (pullArgs rebase)], true⟩

/-- Options destructured by `push`; the no-argument call `push(repository)`
in `sync` leaves all three absent. -/
structure PushOptions where
  remote : Option String := none
  branch : Option String := none
  setUpstream : Bool := false
deriving Repr, DecidableEq

/-- Argv built by `push`: `["push"]`, plus `"-u"` when `setUpstream`, plus
`remote` when truthy, plus `branch` when truthy. -/
def pushArgs (o : PushOptions) : List String :=
  ["push"]
    ++ (if o.setUpstream then ["-u"] else [])
    ++ (match o.remote with
        | some r => if r.isEmpty then [] else [r]
        | none => [])
    ++ (match o.branch with
        | some b => if b.isEmpty then [] else [b]
        | none => [])

/-- Helper `GitSyncService.push`: dispatch `git.exec` with `pushArgs` and route any
rejection through the catch-all handler `error(e)`. -/
def push (o : PushOptions) (outcome : ExecOutcome) : StepResult :=
  match outcome with
  | ExecOutcome.ok => ⟨[Event.exec (pushArgs o)], false⟩
  | ExecOutcome.err e => ⟨Event.exec (pushArgs o) :: errorEvents e, false⟩
  | ExecOutcome.thrown => ⟨[Event.exec (pushArgs o)], true⟩

/-- The value the `shouldPush` promise resolves to:
`status.aheadBehind && status.aheadBehind.ahead > 0 || true`.  The
trailing `|| true` makes it constantly true. -/
def shouldPushResolved (status : RepositoryStatus) : Bool :=
  (match status.aheadBehind with
   | some ab => decide (ab.ahead > 0)
   | none => false) || true

/-- In `sync` the call `this.shouldPush(repository)` is not awaited: the
`if` condition is the Promise object itself, and an object is always truthy
in JavaScript. -/
def promiseObjectTruthy : Bool := true

/-- Placeholder of the sync-method quick-open (`shouldRebase`). -/
def syncMethodPlaceholder : String := "Pick a sync method:"

/-- Item labels of the sync-method quick-open, in order; they resolve to
`false` (merge) and `true` (rebase). -/
def syncMethodLabels : List String :=
  ["Pull and push commits", "Fetch, rebase and push commits"]

/-- Message of the sync confirmation dialog.  JavaScript would interpolate
an absent upstream branch as the text `undefined`, but the entry guard
makes that unreachable. -/
def syncConfirmMsg (rebase : Bool) (upstreamBranch : Option String) : String :=
  let ub := match upstreamBranch with
    | some s => s
    | none => "undefined"
  if rebase then
    "This action will fetch, rebase and push commits from and to \x27"
      ++ ub ++ "\x27."
  else
    "This action will pull and push commits from and to \x27" ++ ub ++ "\x27."

/-- What every external call answers during one `sync` invocation. -/
structure SyncEnv where
  /-- `repositoryTracker.selectedRepository`. -/
  selectedRepository : Option Repository
  /-- `repositoryTracker.selectedRepositoryStatus`. -/
  selectedRepositoryStatus : Option RepositoryStatus
  /-- Resolution of the `shouldRebase` pick; `none` means cancelled. -/
  rebaseChoice : Option Bool
  /-- Resolution of the sync confirmation dialog. -/
  confirmSync : Bool
  /-- Outcome of the `git.exec` dispatched by `pull`. -/
  pullOutcome : ExecOutcome
  /-- Resolution of the (never awaited) `git.status` inside `shouldPush`. -/
  statusResult : RepositoryStatus
  /-- Outcome of the `git.exec` dispatched by `push`. -/
  pushOutcome : ExecOutcome
deriving Repr, DecidableEq

/-- Observable result of one `sync` invocation: event trace, busy flag on
return, and whether the returned promise rejected. -/
structure SyncResult where
  events : List Event
  syncing : Bool
  escaped : Bool
deriving Repr, DecidableEq

/-- Workflow `GitSyncService.sync`, step for step: entry guard, method pick,
confirmation, `setSyncing(true)`, `try { pull; if (shouldPush) push }`
and the `finally { setSyncing(false) }`.  `setSyncing` assigns the flag
and fires the change emitter, hence each flip contributes one
`Event.didChange`. -/
def sync (env : SyncEnv) (syncing : Bool) : SyncResult :=
  let status := env.selectedRepositoryStatus
  if !canSync syncing status || env.selectedRepository.isNone then
    ⟨[], syncing, false⟩
  else
    match env.rebaseChoice with
    | none => ⟨[Event.pick syncMethodPlaceholder syncMethodLabels], syncing, false⟩
    | some rebase =>
      let upstreamBranch := status.bind (fun s => s.upstreamBranch)
      let prompts := [Event.pick syncMethodPlaceholder syncMethodLabels,
        Event.confirmDialog "Sync changes" (syncConfirmMsg rebase upstreamBranch)]
      if !env.confirmSync then
        ⟨prompts, syncing, false⟩
      else
        let pullRes := pull rebase env.pullOutcome
        if pullRes.escaped then
          ⟨prompts ++ [Event.didChange] ++ pullRes.events ++ [Event.didChange],
            false, true⟩
        else if promiseObjectTruthy then
          let pushRes := push {} env.pushOutcome
          ⟨prompts ++ [Event.didChange] ++ pullRes.events ++ [Event.statusQuery]
              ++ pushRes.events ++ [Event.didChange],
            false, pushRes.escaped⟩
        else
          ⟨prompts ++ [Event.didChange] ++ pullRes.events ++ [Event.statusQuery]
              ++ [Event.didChange],
            false, false⟩

/-- Warning shown by `getRemote` when the repository has no remotes. -/
def noRemotesWarning : String :=
  "Your repository has no remotes configured to publish to."

/-- Placeholder of the remote-selection quick-open in `getRemote`. -/
def remoteSelPlaceholder (branch : String) : String :=
  s!"Pick a remote to publish the branch {branch} to:"

/-- Message of the publish confirmation dialog. -/
def publishConfirmMsg (remote branch : String) : String :=
  "This action will push commits to \x27" ++ remote ++ "/" ++ branch
    ++ "\x27 and track it as an upstream branch."

/-- What every external call answers during one `publish` invocation. -/
structure PublishEnv where
  /-- `repositoryTracker.selectedRepository`. -/
  selectedRepository : Option Repository
  /-- `repositoryTracker.selectedRepositoryStatus`. -/
  selectedRepositoryStatus : Option RepositoryStatus
  /-- Resolution of `git.remote(repository)`. -/
  remotes : List String
  /-- Resolution of the remote-selection pick (only consulted when two or
  more remotes exist); `none` means cancelled. -/
  remoteChoice : Option String
  /-- Resolution of the publish confirmation dialog. -/
  confirmPublish : Bool
  /-- Outcome of the `git.exec` dispatched by `push`. -/
  pushOutcome : ExecOutcome
deriving Repr, DecidableEq

/-- Helper `GitSyncService.getRemote`: query the remotes, warn and abort when
there are none, auto-select a single remote, otherwise prompt. -/
def getRemote (env : PublishEnv) (branch : String) :
    List Event × Option String :=
  if env.remotes.length = 0 then
    ([Event.remoteQuery, Event.warn noRemotesWarning], none)
  else if env.remotes.length = 1 then
    ([Event.remoteQuery], env.remotes.head?)
  else
    ([Event.remoteQuery, Event.pick (remoteSelPlaceholder branch) env.remotes],
      env.remoteChoice)

/-- Observable result of one `publish` invocation. -/
structure PublishResult where
  events : List Event
  escaped : Bool
deriving Repr, DecidableEq

/-- Workflow `GitSyncService.publish`, step for step: entry guard (eligibility,
repository and truthy branch), remote choice via `getRemote`, the
`remote && confirm(...)` condition, and the upstream-setting `push`.
The busy flag is never touched by `publish`. -/
def publish (env : PublishEnv) (syncing : Bool) : PublishResult :=
  let status := env.selectedRepositoryStatus
  let branch := status.bind (fun s => s.branch)
  if !canPublish syncing status || env.selectedRepository.isNone
      || !truthy branch then
    ⟨[], false⟩
  else
    let b := branch.getD ""
    let rem := getRemote env b
    match rem.2 with
    | none => ⟨rem.1, false⟩
    | some r =>
      if r.isEmpty then
        ⟨rem.1, false⟩
      else if !env.confirmPublish then
        ⟨rem.1 ++ [Event.confirmDialog "Publish changes" (publishConfirmMsg r b)],
          false⟩
      else
        let pushRes := push ⟨some r, some b, true⟩ env.pushOutcome
        ⟨rem.1 ++ [Event.confirmDialog "Publish changes" (publishConfirmMsg r b)]
            ++ pushRes.events,
          pushRes.escaped⟩

/-- Events that dispatch a git operation (`git.exec`, `git.status`,
`git.remote`). -/
def isCommandEvent : Event → Bool
  | Event.exec _ => true
  | Event.statusQuery => true
  | Event.remoteQuery => true
  | _ => false

/-- Events shown to the user through the message service. -/
def isUserNotice : Event → Bool
  | Event.warn _ => true
  | Event.errorShown _ => true
  | _ => false

/-- An `exec` event whose argv starts with `pull`. -/
def isPullCmd : Event → Bool
  | Event.exec args => args.head? == some "pull"
  | _ => false

/-- A `sync` environment in which the controller is already busy. -/
def busySyncEnv : SyncEnv :=
  ⟨some ⟨"file:///repo"⟩, some ⟨some "master", some "origin/master", none⟩,
    some true, true, ExecOutcome.ok, ⟨none, none, none⟩, ExecOutcome.ok⟩

/-- A `sync` environment in which the user cancels the method pick. -/
def cancelledSyncEnv : SyncEnv :=
  ⟨some ⟨"file:///repo"⟩, some ⟨some "master", some "origin/master", none⟩,
    none, true, ExecOutcome.ok, ⟨none, none, none⟩, ExecOutcome.ok⟩

/-- A fully confirmed `sync` environment whose pull step raises an
exception that escapes the helper. -/
def confirmedSyncEnv : SyncEnv :=
  ⟨some ⟨"file:///repo"⟩, some ⟨some "master", some "origin/master", some ⟨1, 2⟩⟩,
    some true, true, ExecOutcome.thrown, ⟨none, none, none⟩, ExecOutcome.ok⟩

/-- A confirmed rebase `sync` environment whose pull succeeds and whose
re-queried status is up to date (ahead-count 0). -/
def rebaseSyncEnv : SyncEnv :=
  ⟨some ⟨"file:///repo"⟩, some ⟨some "master", some "origin/master", some ⟨0, 1⟩⟩,
    some true, true, ExecOutcome.ok,
    ⟨some "master", some "origin/master", some ⟨0, 1⟩⟩, ExecOutcome.ok⟩

/-- The literal reading of claim C4 at one environment: a pull rejection
with a `CommandError` is always surfaced to the user through some
notification (error message or warning) in the trace. -/
def pullFailureSurfaced (env : SyncEnv) : Prop :=
  ∀ e, env.pullOutcome = ExecOutcome.err e →
    ∃ ev ∈ (sync env false).events, isUserNotice ev = true

/-- A confirmed merge `sync` environment whose pull rejects with a
`CommandError` that has no `message` property. -/
def messagelessErrorEnv : SyncEnv :=
  ⟨some ⟨"file:///repo"⟩, some ⟨some "master", some "origin/master", none⟩,
    some false, true, ExecOutcome.err ⟨none⟩, ⟨none, none, none⟩, ExecOutcome.ok⟩

/-- A `sync` environment and `CommandError` instantiating the amended
claim C4, with the failure message "pull failed". -/
def messagedErrorEnv : SyncEnv :=
  ⟨some ⟨"file:///repo"⟩, some ⟨some "master", some "origin/master", none⟩,
    some false, true, ExecOutcome.err ⟨some "pull failed"⟩,
    ⟨none, none, none⟩, ExecOutcome.ok⟩

/-- A confirmed `sync` environment whose pull and push both reject with
`CommandError`s. -/
def failingSyncEnv : SyncEnv :=
  ⟨some ⟨"file:///repo"⟩, some ⟨some "master", some "origin/master", none⟩,
    some false, true, ExecOutcome.err ⟨some "pull refused"⟩,
    ⟨none, none, none⟩, ExecOutcome.err ⟨none⟩⟩

/-- A `publish` environment whose push rejects with a `CommandError`. -/
def failingPublishEnv : PublishEnv :=
  ⟨some ⟨"file:///repo"⟩, some ⟨some "feature-x", none, none⟩,
    ["origin"], none, true, ExecOutcome.err ⟨some "push failed"⟩⟩

/-- The literal reading of claim C7 at one input: the positional
arguments appear only when both remote and branch are present, so with
either of them missing the argv is the base name plus flags alone. -/
def positionalOnlyWhenBoth (o : PushOptions) : Prop :=
  truthy o.remote = false ∨ truthy o.branch = false →
    pushArgs o = ["push"] ++ (if o.setUpstream then ["-u"] else [])

/-- Events that dispatch `git.exec` (the pull/push command lines). -/
def isExecEvent : Event → Bool
  | Event.exec _ => true
  | _ => false

/-- The `publish` environment of claim C8: a single remote named origin,
current branch feature-x, parametrised by the confirmation answer and the
push outcome. -/
def singleRemoteEnv (c : Bool) (oc : ExecOutcome) : PublishEnv :=
  ⟨some ⟨"file:///repo"⟩, some ⟨some "feature-x", none, none⟩,
    ["origin"], none, c, oc⟩

/-- The `publish` environment of the claim C9 witness: two remotes and a
cancelled selection prompt. -/
def twoRemotesEnv : PublishEnv :=
  ⟨some ⟨"file:///repo"⟩, some ⟨some "feature-x", none, none⟩,
    ["upstream", "fork"], none, true, ExecOutcome.ok⟩

theorem isEmpty_false_iff (s : String) : s.isEmpty = false ↔ ¬s = "" := by
  rw [Bool.eq_false_iff]
  exact not_congr (String.isEmpty_iff s)

theorem truthy_iff (o : Option String) :
    truthy o = true ↔ ∃ s, o = some s ∧ s ≠ "" := by
  cases o with
  | none => simp [truthy]
  | some s => simp [truthy, isEmpty_false_iff]

theorem truthy_eq_false_iff (o : Option String) :
    truthy o = false ↔ o = none ∨ o = some "" := by
  cases o with
  | none => simp [truthy]
  | some s => simp [truthy, String.isEmpty_iff]

theorem canSync_true_iff (syncing : Bool) (status : Option RepositoryStatus) :
    canSync syncing status = true ↔
      syncing = false ∧ ∃ s, status = some s ∧
        truthy s.branch = true ∧ truthy s.upstreamBranch = true := by
  cases syncing <;> cases status <;> simp [canSync]

theorem canPublish_true_iff (syncing : Bool) (status : Option RepositoryStatus) :
    canPublish syncing status = true ↔
      syncing = false ∧ ∃ s, status = some s ∧
        truthy s.branch = true ∧ truthy s.upstreamBranch = false := by
  cases syncing <;> cases status <;> simp [canPublish]

/-- Claim C1: `canSync()` holds exactly when the controller is idle and the
selected status exists with a non-empty branch and a non-empty upstream
branch; `canPublish()` holds exactly when the controller is idle and the
selected status exists with a non-empty branch and no (absent or empty)
upstream branch; and the two queries are never simultaneously true. -/
theorem canSync_canPublish_characterisation
    (syncing : Bool) (status : Option RepositoryStatus) :
    (canSync syncing status = true ↔
      syncing = false ∧ ∃ s b u, status = some s ∧
        s.branch = some b ∧ b ≠ "" ∧ s.upstreamBranch = some u ∧ u ≠ "") ∧
    (canPublish syncing status = true ↔
      syncing = false ∧ ∃ s b, status = some s ∧
        s.branch = some b ∧ b ≠ "" ∧
        (s.upstreamBranch = none ∨ s.upstreamBranch = some "")) ∧
    ¬(canSync syncing status = true ∧ canPublish syncing status = true) := by
  refine ⟨?_, ?_, ?_⟩
  · rw [canSync_true_iff]
    constructor
    · rintro ⟨hsy, s, hs, hb, hu⟩
      obtain ⟨b, hb1, hb0⟩ := (truthy_iff _).mp hb
      obtain ⟨u, hu1, hu0⟩ := (truthy_iff _).mp hu
      exact ⟨hsy, s, b, u, hs, hb1, hb0, hu1, hu0⟩
    · rintro ⟨hsy, s, b, u, hs, hb1, hb0, hu1, hu0⟩
      exact ⟨hsy, s, hs, (truthy_iff _).mpr ⟨b, hb1, hb0⟩,
        (truthy_iff _).mpr ⟨u, hu1, hu0⟩⟩
  · rw [canPublish_true_iff]
    constructor
    · rintro ⟨hsy, s, hs, hb, hu⟩
      obtain ⟨b, hb1, hb0⟩ := (truthy_iff _).mp hb
      exact ⟨hsy, s, b, hs, hb1, hb0, (truthy_eq_false_iff _).mp hu⟩
    · rintro ⟨hsy, s, b, hs, hb1, hb0, hu⟩
      exact ⟨hsy, s, hs, (truthy_iff _).mpr ⟨b, hb1, hb0⟩,
        (truthy_eq_false_iff _).mpr hu⟩
  · rw [canSync_true_iff, canPublish_true_iff]
    rintro ⟨⟨-, s, hs, -, hu⟩, ⟨-, s', hs', -, hu'⟩⟩
    obtain rfl := Option.some.inj (hs.symm.trans hs')
    rw [hu] at hu'
    exact absurd hu' (by simp)

theorem mem_errorEvents (e : CommandError) (ev : Event)
    (h : ev ∈ errorEvents e) :
    ev = Event.consoleError ∨ ∃ m, e.message = some m ∧ m ≠ "" ∧
      ev = Event.errorShown m := by
  rcases e with ⟨m⟩
  cases m with
  | none =>
    simp only [errorEvents, List.mem_singleton] at h
    exact Or.inl h
  | some s =>
    by_cases hs : s.isEmpty = true
    · simp only [errorEvents, hs, if_true, List.mem_singleton] at h
      exact Or.inl h
    · simp [errorEvents, hs] at h
      refine Or.inr ⟨s, rfl, ?_, h⟩
      intro h0
      rw [h0] at hs
      exact hs rfl

theorem mem_pull (rebase : Bool) (oc : ExecOutcome) (ev : Event)
    (h : ev ∈ (pull rebase oc).events) :
    ev = Event.exec (pullArgs rebase) ∨ ev = Event.consoleError ∨
      ∃ m, ev = Event.errorShown m := by
  cases oc with
  | ok =>
    simp only [pull, List.mem_singleton] at h
    exact Or.inl h
  | err e =>
    simp only [pull, List.mem_cons] at h
    rcases h with h | h
    · exact Or.inl h
    · rcases mem_errorEvents e ev h with h | ⟨m, -, -, h⟩
      · exact Or.inr (Or.inl h)
      · exact Or.inr (Or.inr ⟨m, h⟩)
  | thrown =>
    simp only [pull, List.mem_singleton] at h
    exact Or.inl h

theorem mem_push (o : PushOptions) (oc : ExecOutcome) (ev : Event)
    (h : ev ∈ (push o oc).events) :
    ev = Event.exec (pushArgs o) ∨ ev = Event.consoleError ∨
      ∃ m, ev = Event.errorShown m := by
  cases oc with
  | ok =>
    simp only [push, List.mem_singleton] at h
    exact Or.inl h
  | err e =>
    simp only [push, List.mem_cons] at h
    rcases h with h | h
    · exact Or.inl h
    · rcases mem_errorEvents e ev h with h | ⟨m, -, -, h⟩
      · exact Or.inr (Or.inl h)
      · exact Or.inr (Or.inr ⟨m, h⟩)
  | thrown =>
    simp only [push, List.mem_singleton] at h
    exact Or.inl h

theorem didChange_not_mem_pull (rebase : Bool) (oc : ExecOutcome) :
    Event.didChange ∉ (pull rebase oc).events := by
  intro h
  rcases mem_pull rebase oc _ h with h | h | ⟨m, h⟩ <;> exact absurd h (by simp)

theorem didChange_not_mem_push (o : PushOptions) (oc : ExecOutcome) :
    Event.didChange ∉ (push o oc).events := by
  intro h
  rcases mem_push o oc _ h with h | h | ⟨m, h⟩ <;> exact absurd h (by simp)

theorem pick_not_mem_push (o : PushOptions) (oc : ExecOutcome)
    (p : String) (l : List String) :
    Event.pick p l ∉ (push o oc).events := by
  intro h
  rcases mem_push o oc _ h with h | h | ⟨m, h⟩ <;> exact absurd h (by simp)

theorem exec_pushArgs_mem_push (o : PushOptions) (oc : ExecOutcome) :
    Event.exec (pushArgs o) ∈ (push o oc).events := by
  cases oc <;> simp [push]

theorem filter_isPullCmd_errorEvents (e : CommandError) :
    (errorEvents e).filter isPullCmd = [] := by
  rcases e with ⟨m⟩
  cases m with
  | none => simp [errorEvents, isPullCmd]
  | some s =>
    by_cases hs : s.isEmpty = true <;> simp [errorEvents, hs, isPullCmd]

theorem filter_isPullCmd_push (o : PushOptions) (oc : ExecOutcome)
    (h : (pushArgs o).head? ≠ some "pull") :
    (push o oc).events.filter isPullCmd = [] := by
  have hp : isPullCmd (Event.exec (pushArgs o)) = false := by
    simp [isPullCmd, h]
  cases oc with
  | ok => simp [push, hp]
  | err e => simp [push, hp, filter_isPullCmd_errorEvents e]
  | thrown => simp [push, hp]

theorem sync_stop_of_guard (env : SyncEnv) (syncing : Bool)
    (hg : (!canSync syncing env.selectedRepositoryStatus
      || env.selectedRepository.isNone) = true) :
    sync env syncing = ⟨[], syncing, false⟩ := by
  unfold sync
  simp only [hg, if_true]

theorem sync_stop_of_cancelled_pick (env : SyncEnv) (syncing : Bool)
    (hg : (!canSync syncing env.selectedRepositoryStatus
      || env.selectedRepository.isNone) = false)
    (hr : env.rebaseChoice = none) :
    sync env syncing
      = ⟨[Event.pick syncMethodPlaceholder syncMethodLabels], syncing, false⟩ := by
  simp only [sync, hg, hr]
  simp

theorem sync_stop_of_declined (env : SyncEnv) (syncing : Bool) (rebase : Bool)
    (hg : (!canSync syncing env.selectedRepositoryStatus
      || env.selectedRepository.isNone) = false)
    (hr : env.rebaseChoice = some rebase)
    (hc : env.confirmSync = false) :
    sync env syncing
      = ⟨[Event.pick syncMethodPlaceholder syncMethodLabels,
          Event.confirmDialog "Sync changes"
            (syncConfirmMsg rebase
              (env.selectedRepositoryStatus.bind (fun s => s.upstreamBranch)))],
        syncing, false⟩ := by
  simp only [sync, hg, hr, hc]
  simp

theorem sync_run_eq (env : SyncEnv) (syncing : Bool) (rebase : Bool)
    (hg : (!canSync syncing env.selectedRepositoryStatus
      || env.selectedRepository.isNone) = false)
    (hr : env.rebaseChoice = some rebase)
    (hc : env.confirmSync = true) :
    sync env syncing =
      ⟨[Event.pick syncMethodPlaceholder syncMethodLabels,
        Event.confirmDialog "Sync changes"
          (syncConfirmMsg rebase
            (env.selectedRepositoryStatus.bind (fun s => s.upstreamBranch))),
        Event.didChange]
        ++ (pull rebase env.pullOutcome).events
        ++ (if (pull rebase env.pullOutcome).escaped then [Event.didChange]
            else [Event.statusQuery] ++ (push {} env.pushOutcome).events
              ++ [Event.didChange]),
      false,
      (if (pull rebase env.pullOutcome).escaped then true
       else (push {} env.pushOutcome).escaped)⟩ := by
  simp only [sync, hg, hr, hc]
  by_cases hp : (pull rebase env.pullOutcome).escaped = true
  · simp [hp]
  · simp only [Bool.not_eq_true] at hp
    simp [hp, promiseObjectTruthy]

/-- Claim C5: invoking `sync` while the busy flag is true, or while
`canSync()` is false, or while no repository is selected, is a silent
no-op: the trace is empty (no prompt, no git command, no notification, no
change event), the busy flag is unchanged and the call returns normally. -/
theorem sync_ineligible_noop (env : SyncEnv) (syncing : Bool)
    (h : syncing = true ∨ canSync syncing env.selectedRepositoryStatus = false
      ∨ env.selectedRepository = none) :
    sync env syncing = ⟨[], syncing, false⟩ := by
  apply sync_stop_of_guard
  rcases h with h | h | h
  · subst h
    simp [canSync]
  · simp [h]
  · simp [h]

theorem sync_ineligible_noop_witness :
    (true = true ∨ canSync true busySyncEnv.selectedRepositoryStatus = false
      ∨ busySyncEnv.selectedRepository = none) ∧
    sync busySyncEnv true = ⟨[], true, false⟩ :=
  ⟨Or.inl rfl, sync_ineligible_noop busySyncEnv true (Or.inl rfl)⟩

/-- Claim C6: when the user cancels the sync-method pick or declines the
confirmation dialog, no git command is dispatched, no change event fires,
and the busy flag stays idle. -/
theorem sync_cancelled_silent (env : SyncEnv)
    (h : env.rebaseChoice = none ∨ env.confirmSync = false) :
    (sync env false).events.filter isCommandEvent = [] ∧
    Event.didChange ∉ (sync env false).events ∧
    (sync env false).syncing = false := by
  by_cases hg : (!canSync false env.selectedRepositoryStatus
      || env.selectedRepository.isNone) = true
  · rw [sync_stop_of_guard env false hg]
    simp
  · simp only [Bool.not_eq_true] at hg
    rcases h with h | h
    · rw [sync_stop_of_cancelled_pick env false hg h]
      simp [isCommandEvent]
    · rcases hrc : env.rebaseChoice with _ | rebase
      · rw [sync_stop_of_cancelled_pick env false hg hrc]
        simp [isCommandEvent]
      · rw [sync_stop_of_declined env false rebase hg hrc h]
        simp [isCommandEvent]

theorem sync_cancelled_silent_witness :
    (cancelledSyncEnv.rebaseChoice = none ∨ cancelledSyncEnv.confirmSync = false) ∧
    ((sync cancelledSyncEnv false).events.filter isCommandEvent = [] ∧
      Event.didChange ∉ (sync cancelledSyncEnv false).events ∧
      (sync cancelledSyncEnv false).syncing = false) :=
  ⟨Or.inl rfl, sync_cancelled_silent cancelledSyncEnv (Or.inl rfl)⟩

theorem errorShown_mem_errorEvents (e : CommandError) (m : String)
    (hm : e.message = some m) (h0 : m ≠ "") :
    Event.errorShown m ∈ errorEvents e := by
  rcases e with ⟨mm⟩
  cases hm
  have he : m.isEmpty = false := (isEmpty_false_iff m).mpr h0
  simp [errorEvents, he]

theorem consoleError_mem_errorEvents (e : CommandError)
    (h : truthy e.message = false) :
    Event.consoleError ∈ errorEvents e := by
  rcases e with ⟨mm⟩
  rcases (truthy_eq_false_iff mm).mp h with h1 | h1 <;> cases h1
  · simp [errorEvents]
  · simp only [errorEvents]
    decide

/-- Claim C2: every sync invocation that passes the entry guard and both
prompts sets the busy flag and resets it to false before returning — also
when the pull or push step fails or an exception escapes them — and the
change event fires exactly twice during the invocation: once when the flag
becomes true and once when it returns to false. -/
theorem sync_busy_flag_discipline (env : SyncEnv) (rebase : Bool)
    (hg : canSync false env.selectedRepositoryStatus = true)
    (hrepo : env.selectedRepository.isNone = false)
    (hr : env.rebaseChoice = some rebase)
    (hc : env.confirmSync = true) :
    (sync env false).syncing = false ∧
    ∃ pre mid, (sync env false).events
        = pre ++ [Event.didChange] ++ mid ++ [Event.didChange] ∧
      Event.didChange ∉ pre ∧ Event.didChange ∉ mid := by
  have hguard : (!canSync false env.selectedRepositoryStatus
      || env.selectedRepository.isNone) = false := by
    simp [hg, hrepo]
  rw [sync_run_eq env false rebase hguard hr hc]
  by_cases hp : (pull rebase env.pullOutcome).escaped = true
  · refine ⟨rfl, [Event.pick syncMethodPlaceholder syncMethodLabels,
      Event.confirmDialog "Sync changes"
        (syncConfirmMsg rebase
          (env.selectedRepositoryStatus.bind (fun s => s.upstreamBranch)))],
      (pull rebase env.pullOutcome).events, ?_, ?_, ?_⟩
    · simp [hp]
    · simp
    · exact didChange_not_mem_pull rebase env.pullOutcome
  · simp only [Bool.not_eq_true] at hp
    refine ⟨rfl, [Event.pick syncMethodPlaceholder syncMethodLabels,
      Event.confirmDialog "Sync changes"
        (syncConfirmMsg rebase
          (env.selectedRepositoryStatus.bind (fun s => s.upstreamBranch)))],
      (pull rebase env.pullOutcome).events
        ++ Event.statusQuery :: (push {} env.pushOutcome).events, ?_, ?_, ?_⟩
    · simp [hp]
    · simp
    · intro hmem
      simp only [List.mem_append, List.mem_cons] at hmem
      rcases hmem with h | h | h
      · exact didChange_not_mem_pull rebase env.pullOutcome h
      · exact absurd h (by simp)
      · exact didChange_not_mem_push {} env.pushOutcome h

theorem sync_busy_flag_discipline_witness :
    (canSync false confirmedSyncEnv.selectedRepositoryStatus = true ∧
      confirmedSyncEnv.selectedRepository.isNone = false ∧
      confirmedSyncEnv.rebaseChoice = some true ∧
      confirmedSyncEnv.confirmSync = true) ∧
    ((sync confirmedSyncEnv false).syncing = false ∧
      ∃ pre mid, (sync confirmedSyncEnv false).events
          = pre ++ [Event.didChange] ++ mid ++ [Event.didChange] ∧
        Event.didChange ∉ pre ∧ Event.didChange ∉ mid) :=
  ⟨⟨by decide, rfl, rfl, rfl⟩,
    sync_busy_flag_discipline confirmedSyncEnv true (by decide) rfl rfl rfl⟩

/-- Claim C3: a confirmed rebase sync whose pull succeeds and whose
re-queried status reports ahead-count 0 dispatches exactly one pull
command, with argv `["pull", "-r"]`, and still dispatches a push command
afterwards; the `shouldPush` fallback resolves to true for that status. -/
theorem sync_rebase_single_pull (env : SyncEnv)
    (hg : canSync false env.selectedRepositoryStatus = true)
    (hrepo : env.selectedRepository.isNone = false)
    (hr : env.rebaseChoice = some true)
    (hc : env.confirmSync = true)
    (hpull : env.pullOutcome = ExecOutcome.ok)
    (hahead : ∀ ab, env.statusResult.aheadBehind = some ab → ab.ahead = 0) :
    (sync env false).events.filter isPullCmd = [Event.exec ["pull", "-r"]] ∧
    Event.exec ["push"] ∈ (sync env false).events ∧
    shouldPushResolved env.statusResult = true := by
  have hguard : (!canSync false env.selectedRepositoryStatus
      || env.selectedRepository.isNone) = false := by
    simp [hg, hrepo]
  rw [sync_run_eq env false true hguard hr hc, hpull]
  have hfp : ((push {} env.pushOutcome).events).filter isPullCmd = [] :=
    filter_isPullCmd_push {} env.pushOutcome (by decide)
  refine ⟨?_, ?_, ?_⟩
  · simp [pull, pullArgs, List.filter_append, hfp, isPullCmd]
  · have hm := exec_pushArgs_mem_push {} env.pushOutcome
    simp only [pushArgs] at hm
    simp [pull, pullArgs]
    simp at hm
    tauto
  · simp [shouldPushResolved]

theorem sync_rebase_single_pull_witness :
    (canSync false rebaseSyncEnv.selectedRepositoryStatus = true ∧
      rebaseSyncEnv.selectedRepository.isNone = false ∧
      rebaseSyncEnv.rebaseChoice = some true ∧
      rebaseSyncEnv.confirmSync = true ∧
      rebaseSyncEnv.pullOutcome = ExecOutcome.ok ∧
      (∀ ab, rebaseSyncEnv.statusResult.aheadBehind = some ab → ab.ahead = 0)) ∧
    ((sync rebaseSyncEnv false).events.filter isPullCmd
        = [Event.exec ["pull", "-r"]] ∧
      Event.exec ["push"] ∈ (sync rebaseSyncEnv false).events ∧
      shouldPushResolved rebaseSyncEnv.statusResult = true) :=
  ⟨⟨by decide, rfl, rfl, rfl, rfl, by decide⟩,
    sync_rebase_single_pull rebaseSyncEnv (by decide) rfl rfl rfl rfl (by decide)⟩

/-- Claim C4 (amended): a `CommandError` from the pull or push step is
shown through `messageService.error` with the failure message exactly when
that message is present and non-empty; when it is absent or empty the
failure is only logged to the developer console; and a pull failure does
not abort the workflow — the push decision is still dispatched and the
push is still attempted. -/
theorem sync_pull_error_handling (env : SyncEnv) (rebase : Bool) (e : CommandError)
    (hg : canSync false env.selectedRepositoryStatus = true)
    (hrepo : env.selectedRepository.isNone = false)
    (hr : env.rebaseChoice = some rebase)
    (hc : env.confirmSync = true)
    (hpull : env.pullOutcome = ExecOutcome.err e) :
    (∀ m, e.message = some m → m ≠ "" →
        Event.errorShown m ∈ (sync env false).events) ∧
    (truthy e.message = false → Event.consoleError ∈ (sync env false).events) ∧
    Event.statusQuery ∈ (sync env false).events ∧
    Event.exec ["push"] ∈ (sync env false).events ∧
    (∀ e2 m, env.pushOutcome = ExecOutcome.err e2 → e2.message = some m →
        m ≠ "" → Event.errorShown m ∈ (sync env false).events) := by
  have hguard : (!canSync false env.selectedRepositoryStatus
      || env.selectedRepository.isNone) = false := by
    simp [hg, hrepo]
  rw [sync_run_eq env false rebase hguard hr hc, hpull]
  simp only [pull, List.mem_append, List.mem_cons]
  refine ⟨?_, ?_, ?_, ?_, ?_⟩
  · intro m hm h0
    have := errorShown_mem_errorEvents e m hm h0
    simp at this ⊢
    tauto
  · intro ht
    have := consoleError_mem_errorEvents e ht
    simp at this ⊢
    tauto
  · simp
  · have hm := exec_pushArgs_mem_push {} env.pushOutcome
    simp only [pushArgs] at hm
    simp at hm ⊢
    tauto
  · intro e2 m hp2 hm h0
    have := errorShown_mem_errorEvents e2 m hm h0
    rw [hp2]
    simp only [push, List.mem_cons]
    simp at this ⊢
    tauto

/-- Counterexample to claim C4 as stated: when the `CommandError` carries
no message, the trace of the confirmed sync holds no user-facing
notification at all — the failure only reaches `console.error`. -/
theorem sync_pull_error_not_surfaced : ¬ pullFailureSurfaced messagelessErrorEnv := by
  intro h
  have hx := h ⟨none⟩ rfl
  revert hx
  decide

theorem sync_pull_error_handling_witness :
    (canSync false messagedErrorEnv.selectedRepositoryStatus = true ∧
      messagedErrorEnv.selectedRepository.isNone = false ∧
      messagedErrorEnv.rebaseChoice = some false ∧
      messagedErrorEnv.confirmSync = true ∧
      messagedErrorEnv.pullOutcome = ExecOutcome.err ⟨some "pull failed"⟩) ∧
    ((∀ m, (⟨some "pull failed"⟩ : CommandError).message = some m → m ≠ "" →
        Event.errorShown m ∈ (sync messagedErrorEnv false).events) ∧
      (truthy (⟨some "pull failed"⟩ : CommandError).message = false →
        Event.consoleError ∈ (sync messagedErrorEnv false).events) ∧
      Event.statusQuery ∈ (sync messagedErrorEnv false).events ∧
      Event.exec ["push"] ∈ (sync messagedErrorEnv false).events ∧
      (∀ e2 m, messagedErrorEnv.pushOutcome = ExecOutcome.err e2 →
        e2.message = some m → m ≠ "" →
        Event.errorShown m ∈ (sync messagedErrorEnv false).events)) :=
  ⟨⟨by decide, rfl, rfl, rfl, rfl⟩,
    sync_pull_error_handling messagedErrorEnv false ⟨some "pull failed"⟩
      (by decide) rfl rfl rfl rfl⟩

theorem pull_not_escaped (rebase : Bool) (oc : ExecOutcome)
    (h : isClientOutcome oc = true) : (pull rebase oc).escaped = false := by
  cases oc <;> simp_all [pull, isClientOutcome]

theorem push_not_escaped (o : PushOptions) (oc : ExecOutcome)
    (h : isClientOutcome oc = true) : (push o oc).escaped = false := by
  cases oc <;> simp_all [push, isClientOutcome]

theorem sync_not_escaped (env : SyncEnv) (b : Bool)
    (h1 : isClientOutcome env.pullOutcome = true)
    (h2 : isClientOutcome env.pushOutcome = true) :
    (sync env b).escaped = false := by
  by_cases hg : (!canSync b env.selectedRepositoryStatus
      || env.selectedRepository.isNone) = true
  · rw [sync_stop_of_guard env b hg]
  · simp only [Bool.not_eq_true] at hg
    rcases hrc : env.rebaseChoice with _ | rebase
    · rw [sync_stop_of_cancelled_pick env b hg hrc]
    · by_cases hc : env.confirmSync = true
      · rw [sync_run_eq env b rebase hg hrc hc]
        simp [pull_not_escaped rebase env.pullOutcome h1,
          push_not_escaped {} env.pushOutcome h2]
      · simp only [Bool.not_eq_true] at hc
        rw [sync_stop_of_declined env b rebase hg hrc hc]

theorem publish_not_escaped (env : PublishEnv) (b : Bool)
    (h : isClientOutcome env.pushOutcome = true) :
    (publish env b).escaped = false := by
  simp only [publish]
  split
  · rfl
  · split
    · rfl
    · split
      · rfl
      · split
        · rfl
        · exact push_not_escaped _ env.pushOutcome h

/-- Claim C10: as long as the git client only resolves or rejects with a
`CommandError` — its interface contract — the promises returned by `sync`
and `publish` never reject: the pull and push helpers catch every client
failure internally and both workflows complete normally. -/
theorem workflows_never_reject (senv : SyncEnv) (penv : PublishEnv)
    (b1 b2 : Bool)
    (h1 : isClientOutcome senv.pullOutcome = true)
    (h2 : isClientOutcome senv.pushOutcome = true)
    (h3 : isClientOutcome penv.pushOutcome = true) :
    (sync senv b1).escaped = false ∧ (publish penv b2).escaped = false :=
  ⟨sync_not_escaped senv b1 h1 h2, publish_not_escaped penv b2 h3⟩

theorem workflows_never_reject_witness :
    (isClientOutcome failingSyncEnv.pullOutcome = true ∧
      isClientOutcome failingSyncEnv.pushOutcome = true ∧
      isClientOutcome failingPublishEnv.pushOutcome = true) ∧
    ((sync failingSyncEnv false).escaped = false ∧
      (publish failingPublishEnv false).escaped = false) :=
  ⟨⟨rfl, rfl, rfl⟩,
    workflows_never_reject failingSyncEnv failingPublishEnv false false
      rfl rfl rfl⟩

theorem opt_token_eq (s : Option String) :
    (match s with
      | some r => if r.isEmpty then [] else [r]
      | none => ([] : List String))
      = s.toList.filter (fun x => !x.isEmpty) := by
  cases s with
  | none => rfl
  | some r => by_cases hr : r.isEmpty = true <;> simp [hr]

theorem emptyToken_not_mem_pushArgs (o : PushOptions) : "" ∉ pushArgs o := by
  obtain ⟨r, b, u⟩ := o
  intro h
  simp only [pushArgs] at h
  rw [opt_token_eq, opt_token_eq] at h
  cases u <;> simp at h <;>
    rcases h with ⟨-, h⟩ | ⟨-, h⟩ <;> exact absurd h (by decide)

/-- Counterexample to claim C7 as stated: `push` invoked with a remote but
no branch still emits the remote as a positional argument. -/
theorem pushArgs_remote_without_branch :
    pushArgs ⟨some "origin", none, false⟩ = ["push", "origin"] ∧
    ¬ positionalOnlyWhenBoth ⟨some "origin", none, false⟩ := by
  refine ⟨by decide, fun h => ?_⟩
  have hx := h (Or.inr rfl)
  revert hx
  decide

/-- Claim C7 (amended): both builders put the base operation name first,
then the optional flags (`-r`, `-u`), then the positional arguments remote
before branch — each of which appears exactly when it is present and
non-empty, independently of the other — and omitted arguments introduce no
empty or placeholder tokens. -/
theorem command_argv_structure (o : PushOptions) (rebase : Bool) :
    pushArgs o = ["push"] ++ (if o.setUpstream then ["-u"] else [])
      ++ o.remote.toList.filter (fun x => !x.isEmpty)
      ++ o.branch.toList.filter (fun x => !x.isEmpty) ∧
    (pushArgs o).head? = some "push" ∧
    "" ∉ pushArgs o ∧
    pullArgs rebase = ["pull"] ++ (if rebase then ["-r"] else []) ∧
    (pullArgs rebase).head? = some "pull" ∧
    "" ∉ pullArgs rebase := by
  refine ⟨?_, ?_, emptyToken_not_mem_pushArgs o, ?_, ?_, ?_⟩
  · obtain ⟨r, b, u⟩ := o
    simp only [pushArgs]
    rw [opt_token_eq, opt_token_eq]
  · simp [pushArgs]
  · rfl
  · cases rebase <;> decide
  · cases rebase <;> decide

theorem filter_isExecEvent_errorEvents (e : CommandError) :
    (errorEvents e).filter isExecEvent = [] := by
  rcases e with ⟨m⟩
  cases m with
  | none => simp [errorEvents, isExecEvent]
  | some s => by_cases hs : s.isEmpty = true <;> simp [errorEvents, hs, isExecEvent]

theorem filter_isExecEvent_push (o : PushOptions) (oc : ExecOutcome) :
    (push o oc).events.filter isExecEvent = [Event.exec (pushArgs o)] := by
  cases oc with
  | ok => simp [push, isExecEvent]
  | err e => simp [push, isExecEvent, filter_isExecEvent_errorEvents e]
  | thrown => simp [push, isExecEvent]

theorem publish_run_eq (env : PublishEnv) (syncing : Bool) (r : String)
    (hg : (!canPublish syncing env.selectedRepositoryStatus
      || env.selectedRepository.isNone
      || !truthy (env.selectedRepositoryStatus.bind (fun s => s.branch))) = false)
    (hrem : (getRemote env
        ((env.selectedRepositoryStatus.bind (fun s => s.branch)).getD "")).2 = some r)
    (hr : r.isEmpty = false) :
    publish env syncing =
      (if env.confirmPublish then
        ⟨(getRemote env
            ((env.selectedRepositoryStatus.bind (fun s => s.branch)).getD "")).1
          ++ [Event.confirmDialog "Publish changes"
            (publishConfirmMsg r
              ((env.selectedRepositoryStatus.bind (fun s => s.branch)).getD ""))]
          ++ (push ⟨some r,
              some ((env.selectedRepositoryStatus.bind (fun s => s.branch)).getD ""),
              true⟩ env.pushOutcome).events,
          (push ⟨some r,
              some ((env.selectedRepositoryStatus.bind (fun s => s.branch)).getD ""),
              true⟩ env.pushOutcome).escaped⟩
      else
        ⟨(getRemote env
            ((env.selectedRepositoryStatus.bind (fun s => s.branch)).getD "")).1
          ++ [Event.confirmDialog "Publish changes"
            (publishConfirmMsg r
              ((env.selectedRepositoryStatus.bind (fun s => s.branch)).getD ""))],
          false⟩) := by
  simp only [publish, hg, hrem, hr]
  cases hc : env.confirmPublish <;> simp [hc]

/-- Claim C8: publishing with the single remote origin on branch feature-x
shows no remote-selection prompt, the confirmation message contains the
text origin/feature-x, on confirmation exactly one push command is
dispatched — with argv `["push", "-u", "origin", "feature-x"]` — and on
decline no command at all. -/
theorem publish_single_remote (c : Bool) (oc : ExecOutcome) :
    (∀ p l, Event.pick p l ∉ (publish (singleRemoteEnv c oc) false).events) ∧
    (∃ pre post, Event.confirmDialog "Publish changes"
        (pre ++ "origin/feature-x" ++ post)
        ∈ (publish (singleRemoteEnv c oc) false).events) ∧
    (c = true → (publish (singleRemoteEnv c oc) false).events.filter isExecEvent
        = [Event.exec ["push", "-u", "origin", "feature-x"]]) ∧
    (c = false → ∀ args,
        Event.exec args ∉ (publish (singleRemoteEnv c oc) false).events) := by
  have heq := publish_run_eq (singleRemoteEnv c oc) false "origin"
    (by rfl) (by rfl) (by rfl)
  have hevents : (publish (singleRemoteEnv c oc) false).events
      = [Event.remoteQuery, Event.confirmDialog "Publish changes"
          (publishConfirmMsg "origin" "feature-x")]
        ++ (if c then (push ⟨some "origin", some "feature-x", true⟩ oc).events
            else []) := by
    rw [heq]
    cases c <;> rfl
  have hmsg : publishConfirmMsg "origin" "feature-x"
      = "This action will push commits to \x27" ++ "origin/feature-x"
        ++ "\x27 and track it as an upstream branch." := by decide
  rw [hevents]
  cases c with
  | false =>
    simp only [if_false, List.append_nil]
    refine ⟨?_, ?_, ?_, ?_⟩
    · intro p l hmem
      simp at hmem
    · refine ⟨"This action will push commits to \x27",
        "\x27 and track it as an upstream branch.", ?_⟩
      rw [← hmsg]
      simp
    · intro h
      exact absurd h (by decide)
    · intro h args hmem
      simp at hmem
  | true =>
    simp only [if_true]
    refine ⟨?_, ?_, ?_, ?_⟩
    · intro p l hmem
      rcases List.mem_append.mp hmem with h | h
      · simp at h
      · exact pick_not_mem_push _ oc p l h
    · refine ⟨"This action will push commits to \x27",
        "\x27 and track it as an upstream branch.", ?_⟩
      apply List.mem_append_left
      rw [← hmsg]
      simp
    · intro h
      have hpref : [Event.remoteQuery, Event.confirmDialog "Publish changes"
          (publishConfirmMsg "origin" "feature-x")].filter isExecEvent = [] := by
        decide
      rw [List.filter_append, hpref, filter_isExecEvent_push]
      decide
    · intro h
      exact absurd h (by decide)

/-- Claim C9: remote selection during publish — with zero remotes the
trace is exactly one remote query and one warning (no prompt, no push);
with exactly one remote no selection prompt is shown; with two or more
remotes a selection prompt listing exactly those remotes is shown, and a
cancelled pick ends the invocation with exactly the query and the prompt
in the trace (no push, no dialog, no notification). -/
theorem publish_remote_selection (env : PublishEnv)
    (hg : (!canPublish false env.selectedRepositoryStatus
      || env.selectedRepository.isNone
      || !truthy (env.selectedRepositoryStatus.bind (fun s => s.branch))) = false) :
    (env.remotes = [] →
      publish env false
        = ⟨[Event.remoteQuery, Event.warn noRemotesWarning], false⟩) ∧
    (env.remotes.length = 1 →
      ∀ p l, Event.pick p l ∉ (publish env false).events) ∧
    (2 ≤ env.remotes.length →
      Event.pick (remoteSelPlaceholder
          ((env.selectedRepositoryStatus.bind (fun s => s.branch)).getD ""))
        env.remotes ∈ (publish env false).events ∧
      (env.remoteChoice = none →
        publish env false = ⟨[Event.remoteQuery,
          Event.pick (remoteSelPlaceholder
            ((env.selectedRepositoryStatus.bind (fun s => s.branch)).getD ""))
          env.remotes], false⟩)) := by
  refine ⟨?_, ?_, ?_⟩
  · intro h0
    have hrem : getRemote env
        ((env.selectedRepositoryStatus.bind (fun s => s.branch)).getD "")
        = ([Event.remoteQuery, Event.warn noRemotesWarning], none) := by
      simp [getRemote, h0]
    simp only [publish, hg, hrem]
    simp
  · intro h1 p l hmem
    rcases henv : env.remotes with _ | ⟨r, rest⟩
    · rw [henv] at h1
      simp at h1
    · have hrest : rest = [] := by
        rw [henv] at h1
        simpa using h1
      subst hrest
      have hrem : getRemote env
          ((env.selectedRepositoryStatus.bind (fun s => s.branch)).getD "")
          = ([Event.remoteQuery], some r) := by
        simp [getRemote, henv]
      simp only [publish, hg, hrem] at hmem
      by_cases hr : r.isEmpty = true
      · simp [hr] at hmem
      · by_cases hc : env.confirmPublish = true
        · simp [hr, hc] at hmem
          exact pick_not_mem_push _ env.pushOutcome p l hmem
        · simp only [Bool.not_eq_true] at hc
          simp [hr, hc] at hmem
  · intro h2
    rcases henv : env.remotes with _ | ⟨r1, _ | ⟨r2, rest⟩⟩
    · rw [henv] at h2
      simp at h2
    · rw [henv] at h2
      simp at h2
    · have hrem : getRemote env
          ((env.selectedRepositoryStatus.bind (fun s => s.branch)).getD "")
          = ([Event.remoteQuery, Event.pick (remoteSelPlaceholder
              ((env.selectedRepositoryStatus.bind (fun s => s.branch)).getD ""))
              (r1 :: r2 :: rest)], env.remoteChoice) := by
        simp [getRemote, henv]
      constructor
      · rcases hch : env.remoteChoice with _ | rr
        · simp only [publish, hg, hrem, hch]
          simp
        · simp only [publish, hg, hrem, hch]
          by_cases hr : rr.isEmpty = true
          · simp [hr]
          · by_cases hc : env.confirmPublish = true
            · simp [hr, hc]
            · simp only [Bool.not_eq_true] at hc
              simp [hr, hc]
      · intro hch
        simp only [publish, hg, hrem, hch]
        simp

theorem publish_remote_selection_witness :
    ((!canPublish false twoRemotesEnv.selectedRepositoryStatus
      || twoRemotesEnv.selectedRepository.isNone
      || !truthy (twoRemotesEnv.selectedRepositoryStatus.bind (fun s => s.branch)))
        = false) ∧
    ((twoRemotesEnv.remotes = [] →
      publish twoRemotesEnv false
        = ⟨[Event.remoteQuery, Event.warn noRemotesWarning], false⟩) ∧
    (twoRemotesEnv.remotes.length = 1 →
      ∀ p l, Event.pick p l ∉ (publish twoRemotesEnv false).events) ∧
    (2 ≤ twoRemotesEnv.remotes.length →
      Event.pick (remoteSelPlaceholder
          ((twoRemotesEnv.selectedRepositoryStatus.bind (fun s => s.branch)).getD ""))
        twoRemotesEnv.remotes ∈ (publish twoRemotesEnv false).events ∧
      (twoRemotesEnv.remoteChoice = none →
        publish twoRemotesEnv false = ⟨[Event.remoteQuery,
          Event.pick (remoteSelPlaceholder
            ((twoRemotesEnv.selectedRepositoryStatus.bind (fun s => s.branch)).getD ""))
          twoRemotesEnv.remotes], false⟩))) :=
  ⟨by decide, publish_remote_selection twoRemotesEnv (by decide)⟩

end GitSync

